import Mathlib

/-!
# DescentUpdate: the Win32 host shell and the shared game state

A shallow embedding of `src/win32_descent.c` and `src/src/descent.hpp`.

* C arrays are lists; a pointer into `Buttons` is the index it points at.
* Machine integers are `Nat`/`Int`; where the C arithmetic can wrap the
  reduction modulo `2^w` is written out.
* Calls into the operating system are parameters of the functions that make
  them (their outcome is an input), and the calls made are recorded where a
  statement is about them.
-/

namespace Descent

/-! ## Constants of `descent.hpp` -/

def DIB_WIDTH : Nat := 640
def DIB_HEIGHT : Nat := 480
def TEX_LENGTH : Nat := 16
def TILE_WIDTH : Nat := 20
def TILE_HEIGHT : Nat := 20
def SPR_CAP : Nat := 256

/-- Members of `enum GameButtons`. -/
def BT_LEFT : Nat := 0
def BT_UP : Nat := 1
def BT_RIGHT : Nat := 2
def BT_DOWN : Nat := 3
def COUNTOF_BT : Nat := 4

/-- Length of `GameState::Workers` (`Worker Workers[4]`). -/
def WORKER_COUNT : Nat := 4

/-! ## Constants of the platform headers (`windows.h`, `stdint.h`) -/

def VK_LEFT : Nat := 0x25
def VK_UP : Nat := 0x26
def VK_RIGHT : Nat := 0x27
def VK_DOWN : Nat := 0x28
def VK_F11 : Nat := 0x7A

def WM_QUIT : Nat := 0x0012
def WM_KEYDOWN : Nat := 0x0100
def WM_KEYUP : Nat := 0x0101

def INT32_MAX : Nat := 2147483647
def UINT8_MAX : Nat := 255

def DISP_CHANGE_SUCCESSFUL : Int := 0
def DISP_CHANGE_FAILED : Int := -1

def WS_POPUP : Nat := 0x80000000
def WS_VISIBLE : Nat := 0x10000000
def WS_CAPTION : Nat := 0x00C00000
def WS_SYSMENU : Nat := 0x00080000
def DM_PELSWIDTH : Nat := 0x00080000
def DM_PELSHEIGHT : Nat := 0x00100000

/-- Window style of the main window when not fullscreen:
`WS_VISIBLE | WS_SYSMENU | WS_CAPTION`. -/
def MY_WS_FLAGS : Nat := WS_VISIBLE ||| WS_SYSMENU ||| WS_CAPTION

/-! ## Machine integers -/

/-- Value stored by a `uint8_t` object that is assigned `n`. -/
def toUInt8 (n : Nat) : Nat := n % 2 ^ 8

/-- Value stored by a `uint32_t` object that is assigned `n`. -/
def toUInt32 (n : Nat) : Nat := n % 2 ^ 32

/-- Value of an `int64_t` computation whose mathematical result is `z`
(two's complement wrap-around). -/
def toInt64 (z : Int) : Int := (z + 2 ^ 63) % 2 ^ 64 - 2 ^ 63

/-- Conversion `(DWORD) z` of a 64-bit integer to an unsigned 32-bit one. -/
def toDWORD (z : Int) : Nat := (z % 2 ^ 32).toNat

/-! ## Game state (`struct GameState`) -/

/-- The members of `struct GameState` used by the host shell and by the
statements below: `TileMap`, whose cells are `uint8_t`, and `Buttons`, whose
cells are `uint32_t`. -/
structure GameState where
  TileMap : Fin TILE_HEIGHT → Fin TILE_WIDTH → Fin (2 ^ 8)
  Buttons : List Nat

/-! ## `FindButtonFromKey` -/

/-- The table `s_KeyUsed` of `FindButtonFromKey`: a `uint8_t` array
initialised from the four arrow virtual keys. -/
def s_KeyUsed : List Nat :=
  [toUInt8 VK_LEFT, toUInt8 VK_UP, toUInt8 VK_RIGHT, toUInt8 VK_DOWN]

/-- The `for(int I = 0; I < COUNTOF_BT; I++)` loop of `FindButtonFromKey`,
started at `I` with `Rest` iterations to go.  The result is the index of the
button the returned pointer points at, `none` standing for `NULL`. -/
def FindButtonFromKey.loop (VKey : Nat) : Nat → Nat → Option Nat
  | 0, _ => none
  | Rest + 1, I =>
    if VKey = s_KeyUsed.getD I 0 then some I
    else FindButtonFromKey.loop VKey Rest (I + 1)

/-- `FindButtonFromKey(VKey)`: `some I` for `&g_GameState->Buttons[I]`,
`none` for `NULL`. -/
def FindButtonFromKey (VKey : Nat) : Option Nat :=
  FindButtonFromKey.loop VKey COUNTOF_BT 0

/-! ## `ToggleFullscreen` -/

structure RECT where
  left : Int
  top : Int
  right : Int
  bottom : Int
  deriving DecidableEq, Repr

/-- The fields of `DEVMODE` the program sets. -/
structure DEVMODE where
  dmFields : Nat
  dmPelsWidth : Nat
  dmPelsHeight : Nat
  deriving DecidableEq, Repr

/-- What `SetWindowState` sets on the main window. -/
structure WindowState where
  Style : Nat
  X : Int
  Y : Int
  Width : Int
  Height : Int
  deriving DecidableEq, Repr

/-- The function-static variables of `ToggleFullscreen`. -/
structure FullscreenStatics where
  RestoreRect : RECT
  IsFullscreen : Bool
  PrevDevMode : DEVMODE
  deriving DecidableEq, Repr

/-- Outcomes of the display calls made by `ToggleFullscreen`:
`EnumDisplaySettings` fails (`none`) or yields the current mode,
`ChangeDisplaySettings` yields a `LONG` status for the mode asked for,
`GetWindowRect` yields the window rectangle. -/
structure DisplayEnv where
  EnumDisplaySettings : Option DEVMODE
  ChangeDisplaySettings : DEVMODE → Int
  GetWindowRect : RECT

/-- `SetWindowState(Window, Style, X, Y, Width, Height)`. -/
def SetWindowState (Style : Nat) (X Y Width Height : Int) : WindowState :=
  { Style := Style, X := X, Y := Y, Width := Width, Height := Height }

/-- `ToggleFullscreen(Window)`: the `BOOL` returned, the statics and the
window after the call. -/
def ToggleFullscreen (env : DisplayEnv) (st : FullscreenStatics) (win : WindowState) :
    Bool × FullscreenStatics × WindowState :=
  if st.IsFullscreen then
    /- RestoreFromFullscreen -/
    let DispState := env.ChangeDisplaySettings st.PrevDevMode
    if DispState ≠ DISP_CHANGE_SUCCESSFUL then
      (false, st, win)
    else
      (true, { st with IsFullscreen := false },
        SetWindowState MY_WS_FLAGS st.RestoreRect.left st.RestoreRect.top DIB_WIDTH DIB_HEIGHT)
  else
    /- MakeFullscreen -/
    match env.EnumDisplaySettings with
    | none => (false, st, win)
    | some Current =>
      let DevMode : DEVMODE :=
        { dmFields := DM_PELSWIDTH ||| DM_PELSHEIGHT,
          dmPelsWidth := DIB_WIDTH,
          dmPelsHeight := DIB_HEIGHT }
      let DispState := env.ChangeDisplaySettings DevMode
      (decide (DispState = DISP_CHANGE_SUCCESSFUL),
        { RestoreRect := env.GetWindowRect, IsFullscreen := true, PrevDevMode := Current },
        SetWindowState (WS_POPUP ||| WS_VISIBLE) 0 0 DIB_WIDTH DIB_HEIGHT)

/-! ## The message loop of `WinMain` (`ProcessMessages`) -/

structure MSG where
  message : Nat
  wParam : Nat
  deriving DecidableEq, Repr

/-- State the message loop reads and writes: the game state behind
`g_GameState`, the loop flag, the statics of `ToggleFullscreen`, the window,
and the messages handed to `MessageError`. -/
structure HostState where
  Game : GameState
  IsRunning : Bool
  Fullscreen : FullscreenStatics
  Window : WindowState
  Errors : List String

/-- One iteration of the `switch(Message.message)` in `WinMain`.  The default
case (`TranslateMessage`, `DispatchMessage`) reaches `WndProc`, which writes
none of the state kept here. -/
def ProcessMessage (env : DisplayEnv) (h : HostState) (Message : MSG) : HostState :=
  if Message.message = WM_KEYDOWN then
    let KeyI := Message.wParam
    if KeyI = VK_F11 then
      let r := ToggleFullscreen env h.Fullscreen h.Window
      { h with
        Fullscreen := r.2.1,
        Window := r.2.2,
        Errors := if r.1 then h.Errors else h.Errors ++ ["ToggleFullscreen failed"] }
    else
      match FindButtonFromKey Message.wParam with
      | some I =>
        if h.Game.Buttons.getD I 0 < INT32_MAX then
          { h with Game := { h.Game with
              Buttons := h.Game.Buttons.set I (toUInt32 (h.Game.Buttons.getD I 0 + 1)) } }
        else h
      | none => h
  else if Message.message = WM_KEYUP then
    match FindButtonFromKey Message.wParam with
    | some I => { h with Game := { h.Game with Buttons := h.Game.Buttons.set I 0 } }
    | none => h
  else if Message.message = WM_QUIT then
    { h with IsRunning := false }
  else h

/-! ## `LoadProcs` -/

/-- Outcomes of the loader calls made by `LoadProcs`.  `HMODULE` and `FARPROC`
values are addresses, `0` being `NULL`. -/
structure LoaderEnv where
  LoadLibrary : String → Nat
  GetProcAddress : Nat → String → Nat

/-- A call `LoadProcs` makes into the loader. -/
inductive LoaderCall where
  | LoadLibrary (LibName : String)
  | GetProcAddress (Library : Nat) (ProcName : String)
  | FreeLibrary (Library : Nat)
  deriving DecidableEq, Repr

/-- What a call of `LoadProcs` leaves behind: the `HMODULE` returned, the
caller's `Procs` array, and the loader calls made, in order. -/
structure LoadProcsResult where
  Ret : Nat
  Procs : List Nat
  Calls : List LoaderCall
  deriving DecidableEq, Repr

/-- The `for(size_t I = 0; I < ProcCount; I++)` loop of `LoadProcs`, started
at `I` with `Rest` iterations to go. -/
def LoadProcs.loop (env : LoaderEnv) (Library : Nat) (ProcNames : List String) :
    Nat → Nat → List Nat → List LoaderCall → LoadProcsResult
  | 0, _, Procs, Calls => { Ret := Library, Procs := Procs, Calls := Calls }
  | Rest + 1, I, Procs, Calls =>
    let ProcName := ProcNames.getD I ""
    let Procs1 := Procs.set I (env.GetProcAddress Library ProcName)
    let Calls1 := Calls ++ [LoaderCall.GetProcAddress Library ProcName]
    if Procs1.getD I 0 = 0 then
      { Ret := 0, Procs := Procs1, Calls := Calls1 ++ [LoaderCall.FreeLibrary Library] }
    else
      LoadProcs.loop env Library ProcNames Rest (I + 1) Procs1 Calls1

/-- `LoadProcs(LibName, ProcCount, ProcNames, Procs)`. -/
def LoadProcs (env : LoaderEnv) (LibName : String) (ProcCount : Nat)
    (ProcNames : List String) (Procs : List Nat) : LoadProcsResult :=
  let Library := env.LoadLibrary LibName
  if Library = 0 then
    { Ret := 0, Procs := Procs, Calls := [LoaderCall.LoadLibrary LibName] }
  else
    LoadProcs.loop env Library ProcNames ProcCount 0 Procs [LoaderCall.LoadLibrary LibName]

/-! ## Frame pacing in `WinMain` (`SetUpTiming`, `SleepTillNextFrame`) -/

/-- `FinalDeltaCounter = PerfFreq / 60LL` (C division truncates). -/
def FinalDeltaCounter (PerfFreq : Int) : Int :=
  toInt64 (Int.tdiv PerfFreq 60)

/-- `RemainCounter = FinalDeltaCounter - DeltaCounter`. -/
def RemainCounter (PerfFreq DeltaCounter : Int) : Int :=
  toInt64 (FinalDeltaCounter PerfFreq - DeltaCounter)

/-- `SleepMS = (DWORD) (1000LL * RemainCounter / PerfFreq)`. -/
def SleepMS (PerfFreq DeltaCounter : Int) : Nat :=
  toDWORD (Int.tdiv (toInt64 (1000 * RemainCounter PerfFreq DeltaCounter)) PerfFreq)

/-- The `SleepTillNextFrame` block up to its busy wait: `some ms` when
`Sleep(ms)` is called, `none` when it is not. -/
def SleepTillNextFrame (PerfFreq DeltaCounter : Int) (IsGranular : Bool) : Option Nat :=
  if DeltaCounter < FinalDeltaCounter PerfFreq then
    if IsGranular then
      if SleepMS PerfFreq DeltaCounter > 0 then some (SleepMS PerfFreq DeltaCounter)
      else none
    else none
  else none

/-! ## Column ranges of the worker pool -/

/-- Modelled from the spec: the dispatch code of the worker pool (`worker.hpp`
and the renderer that uses it) is not among the sources.  The spec divides the
column count as evenly as possible across the workers, any remainder going to
the first workers; this is the number of columns of worker `I` out of
`Workers` for a screen `W` columns wide. -/
def workerColumnCount (W Workers I : Nat) : Nat :=
  W / Workers + (if I < W % Workers then 1 else 0)

/-- Modelled from the spec: the dispatch code of the worker pool is not among
the sources.  The ranges are contiguous, in worker order, from column `0`;
this is the first column of worker `I`. -/
def workerFirstColumn (W Workers : Nat) : Nat → Nat
  | 0 => 0
  | I + 1 => workerFirstColumn W Workers I + workerColumnCount W Workers I

/-- Modelled from the spec: the dispatch code of the worker pool is not among
the sources.  Column `x` is in the range assigned to worker `I`. -/
def inWorkerRange (W Workers I x : Nat) : Prop :=
  workerFirstColumn W Workers I ≤ x ∧
    x < workerFirstColumn W Workers I + workerColumnCount W Workers I

instance (W Workers I x : Nat) : Decidable (inWorkerRange W Workers I x) := by
  unfold inWorkerRange; infer_instance

/-- The button a mapped key stands for: `VKey` is one of the four arrow keys
and `I` the member of `GameButtons` of the same direction. -/
def MappedKey (VKey I : Nat) : Prop :=
  (VKey = VK_LEFT ∧ I = BT_LEFT) ∨ (VKey = VK_UP ∧ I = BT_UP) ∨
    (VKey = VK_RIGHT ∧ I = BT_RIGHT) ∨ (VKey = VK_DOWN ∧ I = BT_DOWN)

/-! ## Concrete inputs -/

/-- A display on which the current mode can be read and no mode change is
granted (`DISP_CHANGE_FAILED`). -/
def refusingDisplay : DisplayEnv :=
  { EnumDisplaySettings := some { dmFields := 0, dmPelsWidth := 1920, dmPelsHeight := 1080 },
    ChangeDisplaySettings := fun _ => DISP_CHANGE_FAILED,
    GetWindowRect := { left := 100, top := 100, right := 756, bottom := 619 } }

/-- The statics of `ToggleFullscreen` as initialised in the source. -/
def initialStatics : FullscreenStatics :=
  { RestoreRect := { left := 0, top := 0, right := 0, bottom := 0 },
    IsFullscreen := false,
    PrevDevMode := { dmFields := 0, dmPelsWidth := 0, dmPelsHeight := 0 } }

/-- The main window as created by `WinMain`, at some position. -/
def initialWindow : WindowState :=
  { Style := MY_WS_FLAGS, X := 100, Y := 100, Width := 656, Height := 519 }

/-- A running host whose button counters are `Buttons`. -/
def hostWith (Buttons : List Nat) : HostState :=
  { Game := { TileMap := fun _ _ => 0, Buttons := Buttons },
    IsRunning := true,
    Fullscreen := initialStatics,
    Window := initialWindow,
    Errors := [] }

/-- A loader that has `winmm.dll` with both timer functions, and a
`descent.dll` that lacks `GameUpdate`. -/
def winmmOnlyLoader : LoaderEnv :=
  { LoadLibrary := fun LibName =>
      if LibName = "winmm.dll" then 0x7000 else if LibName = "descent.dll" then 0x9000 else 0,
    GetProcAddress := fun Library ProcName =>
      if Library = 0x7000 ∧ ProcName = "timeBeginPeriod" then 0x7010
      else if Library = 0x7000 ∧ ProcName = "timeEndPeriod" then 0x7020
      else 0 }

/-! # Theorems -/

/-! ## `FindButtonFromKey` -/

theorem FindButtonFromKey_eq (VKey : Nat) :
    FindButtonFromKey VKey =
      if VKey = VK_LEFT then some BT_LEFT
      else if VKey = VK_UP then some BT_UP
      else if VKey = VK_RIGHT then some BT_RIGHT
      else if VKey = VK_DOWN then some BT_DOWN
      else none := by
  simp only [FindButtonFromKey, COUNTOF_BT, FindButtonFromKey.loop, s_KeyUsed, toUInt8,
    VK_LEFT, VK_UP, VK_RIGHT, VK_DOWN, BT_LEFT, BT_UP, BT_RIGHT, BT_DOWN]
  norm_num [List.getD]

theorem getD_set_self (l : List Nat) (I v : Nat) (hI : I < l.length) :
    (l.set I v).getD I 0 = v := by
  simp [List.getD_eq_getElem?_getD, List.getElem?_set, hI]

theorem getD_set_ne (l : List Nat) (I J v : Nat) (hJ : J ≠ I) :
    (l.set I v).getD J 0 = l.getD J 0 := by
  simp [List.getD_eq_getElem?_getD, List.getElem?_set, Ne.symm hJ]

theorem MappedKey.find {VKey I : Nat} (hk : MappedKey VKey I) :
    FindButtonFromKey VKey = some I ∧ VKey ≠ VK_F11 ∧ I < COUNTOF_BT := by
  rcases hk with ⟨rfl, rfl⟩ | ⟨rfl, rfl⟩ | ⟨rfl, rfl⟩ | ⟨rfl, rfl⟩ <;> decide

/-- C1: handling `WM_KEYDOWN` for a mapped key is a saturating increment of
that key's button counter: from a prior value `c` the counter goes to `c + 1`
when `c < INT32_MAX` and stays `c` otherwise, it never becomes smaller, and the
other counters keep their values. -/
theorem keydown_saturating_increment (env : DisplayEnv) (h : HostState) (VKey I : Nat)
    (hk : MappedKey VKey I) (hlen : h.Game.Buttons.length = COUNTOF_BT) :
    (ProcessMessage env h ⟨WM_KEYDOWN, VKey⟩).Game.Buttons.getD I 0 =
        (if h.Game.Buttons.getD I 0 < INT32_MAX then h.Game.Buttons.getD I 0 + 1
          else h.Game.Buttons.getD I 0) ∧
      h.Game.Buttons.getD I 0 ≤
        (ProcessMessage env h ⟨WM_KEYDOWN, VKey⟩).Game.Buttons.getD I 0 ∧
      (∀ J, J ≠ I →
        (ProcessMessage env h ⟨WM_KEYDOWN, VKey⟩).Game.Buttons.getD J 0 =
          h.Game.Buttons.getD J 0) ∧
      (ProcessMessage env h ⟨WM_KEYDOWN, VKey⟩).Game.Buttons.length = COUNTOF_BT := by
  obtain ⟨hfind, hf11, hI⟩ := hk.find
  have hI' : I < h.Game.Buttons.length := by rw [hlen]; exact hI
  by_cases hc : h.Game.Buttons.getD I 0 < INT32_MAX
  · have hwrap : toUInt32 (h.Game.Buttons.getD I 0 + 1) = h.Game.Buttons.getD I 0 + 1 := by
      unfold toUInt32
      apply Nat.mod_eq_of_lt
      unfold INT32_MAX at hc
      omega
    have hstep : (ProcessMessage env h ⟨WM_KEYDOWN, VKey⟩).Game.Buttons =
        h.Game.Buttons.set I (h.Game.Buttons.getD I 0 + 1) := by
      simp only [ProcessMessage, hf11, hfind, hc, hwrap, if_true, if_false]
    rw [hstep, getD_set_self _ _ _ hI', if_pos hc]
    refine ⟨rfl, Nat.le_succ _, ?_, ?_⟩
    · intro J hJ
      exact getD_set_ne _ _ _ _ hJ
    · simpa using hlen
  · have hstep : (ProcessMessage env h ⟨WM_KEYDOWN, VKey⟩).Game.Buttons = h.Game.Buttons := by
      simp only [ProcessMessage, hf11, hfind, hc, if_true, if_false]
    rw [hstep, if_neg hc]
    exact ⟨rfl, le_refl _, fun _ _ => rfl, hlen⟩

/-- Witness of C1: `VK_UP` pressed while its counter is one below `INT32_MAX`
and `VK_RIGHT` pressed while its counter is `INT32_MAX`. -/
theorem keydown_saturating_increment_witness :
    (MappedKey VK_UP BT_UP ∧
      (hostWith [7, 2147483646, 2147483647, 9]).Game.Buttons.length = COUNTOF_BT ∧
      (ProcessMessage refusingDisplay (hostWith [7, 2147483646, 2147483647, 9])
        ⟨WM_KEYDOWN, VK_UP⟩).Game.Buttons = [7, 2147483647, 2147483647, 9]) ∧
    (MappedKey VK_RIGHT BT_RIGHT ∧
      (ProcessMessage refusingDisplay (hostWith [7, 2147483646, 2147483647, 9])
        ⟨WM_KEYDOWN, VK_RIGHT⟩).Game.Buttons.getD BT_RIGHT 0 =
        (if (hostWith [7, 2147483646, 2147483647, 9]).Game.Buttons.getD BT_RIGHT 0 < INT32_MAX
          then (hostWith [7, 2147483646, 2147483647, 9]).Game.Buttons.getD BT_RIGHT 0 + 1
          else (hostWith [7, 2147483646, 2147483647, 9]).Game.Buttons.getD BT_RIGHT 0)) := by
  have hup : MappedKey VK_UP BT_UP := Or.inr (Or.inl ⟨rfl, rfl⟩)
  have hright : MappedKey VK_RIGHT BT_RIGHT := Or.inr (Or.inr (Or.inl ⟨rfl, rfl⟩))
  have h1 := keydown_saturating_increment refusingDisplay
    (hostWith [7, 2147483646, 2147483647, 9]) VK_UP BT_UP hup rfl
  have h2 := keydown_saturating_increment refusingDisplay
    (hostWith [7, 2147483646, 2147483647, 9]) VK_RIGHT BT_RIGHT hright rfl
  refine ⟨⟨hup, rfl, ?_⟩, hright, h2.1⟩
  decide

/-- C2: handling `WM_KEYUP` for a mapped key sets that key's button counter
to `0` and leaves the other counters as they were. -/
theorem keyup_zeroes_counter (env : DisplayEnv) (h : HostState) (VKey I : Nat)
    (hk : MappedKey VKey I) (hlen : h.Game.Buttons.length = COUNTOF_BT) :
    (ProcessMessage env h ⟨WM_KEYUP, VKey⟩).Game.Buttons.getD I 0 = 0 ∧
      (∀ J, J ≠ I →
        (ProcessMessage env h ⟨WM_KEYUP, VKey⟩).Game.Buttons.getD J 0 =
          h.Game.Buttons.getD J 0) ∧
      (ProcessMessage env h ⟨WM_KEYUP, VKey⟩).Game.Buttons.length = COUNTOF_BT := by
  obtain ⟨hfind, -, hI⟩ := hk.find
  have hI' : I < h.Game.Buttons.length := by rw [hlen]; exact hI
  have hne : WM_KEYUP ≠ WM_KEYDOWN := by decide
  have hstep : (ProcessMessage env h ⟨WM_KEYUP, VKey⟩).Game.Buttons =
      h.Game.Buttons.set I 0 := by
    simp only [ProcessMessage, hne, hfind, if_true, if_false]
  rw [hstep, getD_set_self _ _ _ hI']
  refine ⟨rfl, ?_, ?_⟩
  · intro J hJ
    exact getD_set_ne _ _ _ _ hJ
  · simpa using hlen

/-- Witness of C2: `VK_DOWN` released with every counter nonzero. -/
theorem keyup_zeroes_counter_witness :
    MappedKey VK_DOWN BT_DOWN ∧
      (hostWith [7, 2147483646, 2147483647, 9]).Game.Buttons.length = COUNTOF_BT ∧
      (ProcessMessage refusingDisplay (hostWith [7, 2147483646, 2147483647, 9])
        ⟨WM_KEYUP, VK_DOWN⟩).Game.Buttons = [7, 2147483646, 2147483647, 0] ∧
      (ProcessMessage refusingDisplay (hostWith [7, 2147483646, 2147483647, 9])
        ⟨WM_KEYUP, VK_DOWN⟩).Game.Buttons.getD BT_DOWN 0 = 0 := by
  have hdown : MappedKey VK_DOWN BT_DOWN := Or.inr (Or.inr (Or.inr ⟨rfl, rfl⟩))
  refine ⟨hdown, rfl, ?_, (keyup_zeroes_counter refusingDisplay
    (hostWith [7, 2147483646, 2147483647, 9]) VK_DOWN BT_DOWN hdown rfl).1⟩
  decide

/-- C3: a key-down or key-up message for a virtual key that is none of
`VK_LEFT`, `VK_UP`, `VK_RIGHT`, `VK_DOWN` leaves every button counter as it
was. -/
theorem unmapped_key_keeps_buttons (env : DisplayEnv) (h : HostState) (m VKey : Nat)
    (hm : m = WM_KEYDOWN ∨ m = WM_KEYUP)
    (hl : VKey ≠ VK_LEFT) (hu : VKey ≠ VK_UP) (hr : VKey ≠ VK_RIGHT) (hd : VKey ≠ VK_DOWN) :
    (ProcessMessage env h ⟨m, VKey⟩).Game.Buttons = h.Game.Buttons := by
  have hfind : FindButtonFromKey VKey = none := by
    rw [FindButtonFromKey_eq, if_neg hl, if_neg hu, if_neg hr, if_neg hd]
  have hne : WM_KEYUP ≠ WM_KEYDOWN := by decide
  rcases hm with rfl | rfl
  · by_cases hf : VKey = VK_F11
    · simp only [ProcessMessage, hf, if_true]
    · simp only [ProcessMessage, hf, hfind, if_true, if_false]
  · simp only [ProcessMessage, hne, hfind, if_true, if_false]

/-- Witness of C3: `VK_F11` pressed and released, and a key code (`0x125`)
whose low 8 bits are those of `VK_LEFT` pressed. -/
theorem unmapped_key_keeps_buttons_witness :
    (VK_F11 ≠ VK_LEFT ∧ VK_F11 ≠ VK_UP ∧ VK_F11 ≠ VK_RIGHT ∧ VK_F11 ≠ VK_DOWN) ∧
    (ProcessMessage refusingDisplay (hostWith [7, 2147483646, 2147483647, 9])
      ⟨WM_KEYDOWN, VK_F11⟩).Game.Buttons = [7, 2147483646, 2147483647, 9] ∧
    (ProcessMessage refusingDisplay (hostWith [7, 2147483646, 2147483647, 9])
      ⟨WM_KEYUP, VK_F11⟩).Game.Buttons = [7, 2147483646, 2147483647, 9] ∧
    (0x125 % 2 ^ 8 = VK_LEFT ∧ 0x125 ≠ VK_LEFT) ∧
    (ProcessMessage refusingDisplay (hostWith [7, 2147483646, 2147483647, 9])
      ⟨WM_KEYDOWN, 0x125⟩).Game.Buttons = [7, 2147483646, 2147483647, 9] :=
  ⟨by decide,
    unmapped_key_keeps_buttons refusingDisplay (hostWith [7, 2147483646, 2147483647, 9])
      WM_KEYDOWN VK_F11 (Or.inl rfl) (by decide) (by decide) (by decide) (by decide),
    unmapped_key_keeps_buttons refusingDisplay (hostWith [7, 2147483646, 2147483647, 9])
      WM_KEYUP VK_F11 (Or.inr rfl) (by decide) (by decide) (by decide) (by decide),
    by decide,
    unmapped_key_keeps_buttons refusingDisplay (hostWith [7, 2147483646, 2147483647, 9])
      WM_KEYDOWN 0x125 (Or.inl rfl) (by decide) (by decide) (by decide) (by decide)⟩

/-- C4: `FindButtonFromKey` returns `Buttons[BT_LEFT]` for `VK_LEFT`,
`Buttons[BT_UP]` for `VK_UP`, `Buttons[BT_RIGHT]` for `VK_RIGHT`,
`Buttons[BT_DOWN]` for `VK_DOWN` and `NULL` for every other key code; two keys
that get the same counter are the same key, and the index of a returned
counter is below `COUNTOF_BT`. -/
theorem FindButtonFromKey_agrees_with_GameButtons :
    FindButtonFromKey VK_LEFT = some BT_LEFT ∧
    FindButtonFromKey VK_UP = some BT_UP ∧
    FindButtonFromKey VK_RIGHT = some BT_RIGHT ∧
    FindButtonFromKey VK_DOWN = some BT_DOWN ∧
    (∀ VKey, VKey ≠ VK_LEFT → VKey ≠ VK_UP → VKey ≠ VK_RIGHT → VKey ≠ VK_DOWN →
      FindButtonFromKey VKey = none) ∧
    (∀ K1 K2 I, FindButtonFromKey K1 = some I → FindButtonFromKey K2 = some I → K1 = K2) ∧
    (∀ VKey I, FindButtonFromKey VKey = some I → I < COUNTOF_BT) := by
  refine ⟨by decide, by decide, by decide, by decide, ?_, ?_, ?_⟩
  · intro VKey hl hu hr hd
    rw [FindButtonFromKey_eq, if_neg hl, if_neg hu, if_neg hr, if_neg hd]
  · intro K1 K2 I h1 h2
    rw [FindButtonFromKey_eq] at h1 h2
    simp only [BT_LEFT, BT_UP, BT_RIGHT, BT_DOWN] at h1 h2
    split_ifs at h1 h2 <;>
      (simp only [Option.some.injEq] at h1 h2; omega)
  · intro VKey I h1
    rw [FindButtonFromKey_eq] at h1
    simp only [BT_LEFT, BT_UP, BT_RIGHT, BT_DOWN] at h1
    unfold COUNTOF_BT
    split_ifs at h1 <;>
      (simp only [Option.some.injEq] at h1; omega)

/-- Witness of C4: the key code `0x125` gets no counter, the counter of
`VK_DOWN` is that of no other key, and its index is below `COUNTOF_BT`. -/
theorem FindButtonFromKey_agrees_with_GameButtons_witness :
    FindButtonFromKey 0x125 = none ∧
    (FindButtonFromKey VK_DOWN = some 3 ∧ VK_DOWN = VK_DOWN) ∧
    (3 : Nat) < COUNTOF_BT :=
  ⟨FindButtonFromKey_agrees_with_GameButtons.2.2.2.2.1 0x125
      (by decide) (by decide) (by decide) (by decide),
    ⟨by decide, FindButtonFromKey_agrees_with_GameButtons.2.2.2.2.2.1 VK_DOWN VK_DOWN 3
      (by decide) (by decide)⟩,
    FindButtonFromKey_agrees_with_GameButtons.2.2.2.2.2.2 VK_DOWN 3 (by decide)⟩

/-! ## `ToggleFullscreen` -/

/-- C6, at the input where it fails: windowed, `EnumDisplaySettings` succeeds
and `ChangeDisplaySettings` returns `DISP_CHANGE_FAILED`.  `ToggleFullscreen`
returns `FALSE`, yet the fullscreen flag has changed from `FALSE` to `TRUE` and
the window has been made a popup at the origin. -/
theorem ToggleFullscreen_failed_change_sets_flag :
    initialStatics.IsFullscreen = false ∧
    refusingDisplay.EnumDisplaySettings ≠ none ∧
    refusingDisplay.ChangeDisplaySettings
      { dmFields := DM_PELSWIDTH ||| DM_PELSHEIGHT,
        dmPelsWidth := DIB_WIDTH, dmPelsHeight := DIB_HEIGHT } ≠ DISP_CHANGE_SUCCESSFUL ∧
    (ToggleFullscreen refusingDisplay initialStatics initialWindow).1 = false ∧
    (ToggleFullscreen refusingDisplay initialStatics initialWindow).2.1.IsFullscreen = true ∧
    (ToggleFullscreen refusingDisplay initialStatics initialWindow).2.2 =
      { Style := WS_POPUP ||| WS_VISIBLE, X := 0, Y := 0, Width := 640, Height := 480 } := by
  refine ⟨rfl, ?_, ?_, ?_, ?_, ?_⟩ <;> decide

/-! ## Tile ids and the texture bank -/

/-- C8: every value a `uint8_t` tile cell can hold is below `SPR_CAP`, the
number of textures in `TexData`; so the id in every cell of the
`TILE_HEIGHT` by `TILE_WIDTH` grid is an index into `TexData`. -/
theorem tile_id_below_SPR_CAP (s : GameState) (r : Fin TILE_HEIGHT) (c : Fin TILE_WIDTH) :
    (s.TileMap r c).val < SPR_CAP ∧ (∀ n : Nat, toUInt8 n < SPR_CAP) ∧
      UINT8_MAX < SPR_CAP ∧ TILE_HEIGHT = 20 ∧ TILE_WIDTH = 20 := by
  refine ⟨(s.TileMap r c).isLt, ?_, by decide, rfl, rfl⟩
  intro n
  unfold toUInt8 SPR_CAP
  omega

/-! ## Frame pacing -/

theorem toInt64_of_fits (z : Int) (hlo : -2 ^ 63 ≤ z) (hhi : z < 2 ^ 63) : toInt64 z = z := by
  unfold toInt64
  omega

theorem timing_values (PerfFreq DeltaCounter : Int) (hpos : 0 < PerfFreq)
    (hfit : 1000 * PerfFreq / 60 < 2 ^ 63) (h0 : 0 ≤ DeltaCounter)
    (hlt : DeltaCounter < FinalDeltaCounter PerfFreq) :
    FinalDeltaCounter PerfFreq = PerfFreq / 60 ∧
      RemainCounter PerfFreq DeltaCounter = PerfFreq / 60 - DeltaCounter ∧
      (SleepMS PerfFreq DeltaCounter : Int) = 1000 * (PerfFreq / 60 - DeltaCounter) / PerfFreq ∧
      (SleepMS PerfFreq DeltaCounter : Int) ≤ 16 := by
  have hF : FinalDeltaCounter PerfFreq = PerfFreq / 60 := by
    unfold FinalDeltaCounter
    rw [Int.tdiv_eq_ediv (le_of_lt hpos) (by norm_num)]
    apply toInt64_of_fits <;> omega
  rw [hF] at hlt
  have hR : RemainCounter PerfFreq DeltaCounter = PerfFreq / 60 - DeltaCounter := by
    unfold RemainCounter
    rw [hF]
    apply toInt64_of_fits <;> omega
  have hq0 : 0 ≤ 1000 * (PerfFreq / 60 - DeltaCounter) / PerfFreq :=
    Int.ediv_nonneg (by omega) (le_of_lt hpos)
  have hmul : 1000 * (PerfFreq / 60 - DeltaCounter) / PerfFreq * PerfFreq ≤
      1000 * (PerfFreq / 60 - DeltaCounter) := Int.ediv_mul_le _ (ne_of_gt hpos)
  have hq16 : 1000 * (PerfFreq / 60 - DeltaCounter) / PerfFreq ≤ 16 := by
    by_contra hcon
    have h17 : 17 ≤ 1000 * (PerfFreq / 60 - DeltaCounter) / PerfFreq := by omega
    have : 17 * PerfFreq ≤ 1000 * (PerfFreq / 60 - DeltaCounter) / PerfFreq * PerfFreq :=
      Int.mul_le_mul_of_nonneg_right h17 (le_of_lt hpos)
    omega
  have hS : (SleepMS PerfFreq DeltaCounter : Int) =
      1000 * (PerfFreq / 60 - DeltaCounter) / PerfFreq := by
    unfold SleepMS toDWORD
    rw [hR, toInt64_of_fits _ (by omega) (by omega),
      Int.tdiv_eq_ediv (by omega) (le_of_lt hpos)]
    omega
  exact ⟨hF, hR, hS, by rw [hS]; exact hq16⟩

/-- C9: for a performance frequency `PerfFreq > 0` with `1000 * PerfFreq / 60`
inside `int64_t` and a `DeltaCounter` with
`0 <= DeltaCounter < FinalDeltaCounter = PerfFreq / 60`, the sleep computed is
`1000 * (FinalDeltaCounter - DeltaCounter) / PerfFreq`, it does not pass the
frame deadline (`SleepMS * PerfFreq <= 1000 * (FinalDeltaCounter - DeltaCounter)`)
and it is at most 16 ms. -/
theorem frame_sleep_within_deadline (PerfFreq DeltaCounter : Int) (hpos : 0 < PerfFreq)
    (hfit : 1000 * PerfFreq / 60 < 2 ^ 63) (h0 : 0 ≤ DeltaCounter)
    (hlt : DeltaCounter < FinalDeltaCounter PerfFreq) :
    FinalDeltaCounter PerfFreq = PerfFreq / 60 ∧
      (SleepMS PerfFreq DeltaCounter : Int) =
        1000 * (FinalDeltaCounter PerfFreq - DeltaCounter) / PerfFreq ∧
      (SleepMS PerfFreq DeltaCounter : Int) * PerfFreq ≤
        1000 * (FinalDeltaCounter PerfFreq - DeltaCounter) ∧
      SleepMS PerfFreq DeltaCounter ≤ 16 := by
  obtain ⟨hF, -, hS, h16⟩ := timing_values PerfFreq DeltaCounter hpos hfit h0 hlt
  refine ⟨hF, ?_, ?_, ?_⟩
  · rw [hS, hF]
  · rw [hS, hF]
    exact Int.ediv_mul_le _ (ne_of_gt hpos)
  · exact_mod_cast h16

/-- Witness of C9: a 10 MHz performance counter and a frame that took no
time: the sleep is 16 ms, 160000000 counts out of the 166666000 left. -/
theorem frame_sleep_within_deadline_witness :
    ((0 : Int) < 10000000 ∧ (1000 * 10000000 / 60 : Int) < 2 ^ 63 ∧
      (0 : Int) < FinalDeltaCounter 10000000) ∧
    FinalDeltaCounter 10000000 = 166666 ∧
    SleepMS 10000000 0 = 16 ∧
    (SleepMS 10000000 0 : Int) * 10000000 ≤ 1000 * (FinalDeltaCounter 10000000 - 0) ∧
    SleepMS 10000000 0 ≤ 16 := by
  have hF : FinalDeltaCounter 10000000 = 166666 := by decide
  have hlt : (0 : Int) < FinalDeltaCounter 10000000 := by decide
  have h := frame_sleep_within_deadline 10000000 0 (by decide) (by decide) (le_refl 0) hlt
  exact ⟨⟨by decide, by decide, hlt⟩, hF, by decide, h.2.2.1, h.2.2.2⟩

/-! ## `LoadProcs` -/

theorem LoadProcs.loop_succ (env : LoaderEnv) (Library : Nat) (ProcNames : List String)
    (Rest I : Nat) (Procs : List Nat) (Calls : List LoaderCall) (hI : I < Procs.length) :
    LoadProcs.loop env Library ProcNames (Rest + 1) I Procs Calls =
      if env.GetProcAddress Library (ProcNames.getD I "") = 0 then
        { Ret := 0,
          Procs := Procs.set I (env.GetProcAddress Library (ProcNames.getD I "")),
          Calls := Calls ++ [LoaderCall.GetProcAddress Library (ProcNames.getD I "")] ++
            [LoaderCall.FreeLibrary Library] }
      else
        LoadProcs.loop env Library ProcNames Rest (I + 1)
          (Procs.set I (env.GetProcAddress Library (ProcNames.getD I "")))
          (Calls ++ [LoaderCall.GetProcAddress Library (ProcNames.getD I "")]) := by
  simp only [LoadProcs.loop, getD_set_self _ _ _ hI]

/-- The loop of `LoadProcs` when every remaining name resolves. -/
theorem LoadProcs.loop_resolved (env : LoaderEnv) (Library : Nat) (ProcNames : List String) :
    ∀ (Rest I : Nat) (Procs : List Nat) (Calls : List LoaderCall),
      I + Rest ≤ Procs.length →
      (∀ J, I ≤ J → J < I + Rest → env.GetProcAddress Library (ProcNames.getD J "") ≠ 0) →
      (LoadProcs.loop env Library ProcNames Rest I Procs Calls).Ret = Library ∧
      (LoadProcs.loop env Library ProcNames Rest I Procs Calls).Calls =
        Calls ++ (List.range' I Rest).map
          (fun J => LoaderCall.GetProcAddress Library (ProcNames.getD J "")) ∧
      (LoadProcs.loop env Library ProcNames Rest I Procs Calls).Procs.length = Procs.length ∧
      (∀ J, I ≤ J → J < I + Rest →
        (LoadProcs.loop env Library ProcNames Rest I Procs Calls).Procs.getD J 0 =
          env.GetProcAddress Library (ProcNames.getD J "")) ∧
      (∀ J, J < I ∨ I + Rest ≤ J →
        (LoadProcs.loop env Library ProcNames Rest I Procs Calls).Procs.getD J 0 =
          Procs.getD J 0) := by
  intro Rest
  induction Rest with
  | zero =>
    intro I Procs Calls _ _
    refine ⟨rfl, by simp [LoadProcs.loop], rfl, ?_, fun _ _ => rfl⟩
    intro J h1 h2
    omega
  | succ Rest ih =>
    intro I Procs Calls hlen hres
    have hI : I < Procs.length := by omega
    have hP : env.GetProcAddress Library (ProcNames.getD I "") ≠ 0 :=
      hres I (le_refl I) (by omega)
    rw [LoadProcs.loop_succ _ _ _ _ _ _ _ hI, if_neg hP]
    obtain ⟨h1, h2, h3, h4, h5⟩ := ih (I + 1)
      (Procs.set I (env.GetProcAddress Library (ProcNames.getD I "")))
      (Calls ++ [LoaderCall.GetProcAddress Library (ProcNames.getD I "")])
      (by rw [List.length_set]; omega)
      (fun J hJ1 hJ2 => hres J (by omega) (by omega))
    refine ⟨h1, ?_, ?_, ?_, ?_⟩
    · rw [h2, List.range'_succ, List.map_cons, List.append_assoc]
      rfl
    · rw [h3, List.length_set]
    · intro J hJ1 hJ2
      by_cases hJI : J = I
      · subst hJI
        rw [h5 J (Or.inl (Nat.lt_succ_self J)), getD_set_self _ _ _ hI]
      · exact h4 J (by omega) (by omega)
    · intro J hJ
      rw [h5 J (by omega), getD_set_ne _ _ _ _ (by omega)]

/-- The loop of `LoadProcs` when the name at index `K` is the first that does
not resolve. -/
theorem LoadProcs.loop_unresolved (env : LoaderEnv) (Library : Nat) (ProcNames : List String)
    (K : Nat) :
    ∀ (Rest I : Nat) (Procs : List Nat) (Calls : List LoaderCall),
      I + Rest ≤ Procs.length → I ≤ K → K < I + Rest →
      (∀ J, I ≤ J → J < K → env.GetProcAddress Library (ProcNames.getD J "") ≠ 0) →
      env.GetProcAddress Library (ProcNames.getD K "") = 0 →
      (LoadProcs.loop env Library ProcNames Rest I Procs Calls).Ret = 0 ∧
      (LoadProcs.loop env Library ProcNames Rest I Procs Calls).Calls =
        Calls ++ (List.range' I (K + 1 - I)).map
          (fun J => LoaderCall.GetProcAddress Library (ProcNames.getD J "")) ++
          [LoaderCall.FreeLibrary Library] ∧
      (LoadProcs.loop env Library ProcNames Rest I Procs Calls).Procs.getD K 0 = 0 ∧
      (∀ J, K < J →
        (LoadProcs.loop env Library ProcNames Rest I Procs Calls).Procs.getD J 0 =
          Procs.getD J 0) := by
  intro Rest
  induction Rest with
  | zero =>
    intro I Procs Calls _ h1 h2
    omega
  | succ Rest ih =>
    intro I Procs Calls hlen hIK hK hres hfail
    have hI : I < Procs.length := by omega
    rw [LoadProcs.loop_succ _ _ _ _ _ _ _ hI]
    by_cases hKI : K = I
    · subst hKI
      rw [if_pos hfail]
      refine ⟨rfl, ?_, ?_, ?_⟩
      · have : K + 1 - K = 1 := by omega
        rw [this]
        rfl
      · show (Procs.set K _).getD K 0 = 0
        rw [getD_set_self _ _ _ hI, hfail]
      · intro J hJ
        exact getD_set_ne _ _ _ _ (by omega)
    · have hP : env.GetProcAddress Library (ProcNames.getD I "") ≠ 0 :=
        hres I (le_refl I) (by omega)
      rw [if_neg hP]
      obtain ⟨h1, h2, h3, h4⟩ := ih (I + 1)
        (Procs.set I (env.GetProcAddress Library (ProcNames.getD I "")))
        (Calls ++ [LoaderCall.GetProcAddress Library (ProcNames.getD I "")])
        (by rw [List.length_set]; omega) (by omega) (by omega)
        (fun J hJ1 hJ2 => hres J (by omega) hJ2) hfail
      refine ⟨h1, ?_, h3, ?_⟩
      · have : K + 1 - I = (K + 1 - (I + 1)) + 1 := by omega
        rw [h2, this, List.range'_succ, List.map_cons]
        simp [List.append_assoc]
      · intro J hJ
        rw [h4 J hJ, getD_set_ne _ _ _ _ (by omega)]

/-- C7: `LoadProcs` returns a non-`NULL` handle exactly when the library loads
and each of the `ProcCount` names resolves; a non-`NULL` return is the library
handle and leaves in `Procs[I]`, for every `I < ProcCount`, the non-`NULL`
address the name resolved to; when the name at `K` is the first that does not
resolve, the calls made are the lookups of the names `0..K` followed by the
`FreeLibrary`, and `NULL` is returned. -/
theorem LoadProcs_handle_iff_all_resolve (env : LoaderEnv) (LibName : String)
    (ProcCount : Nat) (ProcNames : List String) (Procs : List Nat)
    (hp : ProcCount ≤ Procs.length) :
    ((LoadProcs env LibName ProcCount ProcNames Procs).Ret ≠ 0 ↔
      (env.LoadLibrary LibName ≠ 0 ∧ ∀ I, I < ProcCount →
        env.GetProcAddress (env.LoadLibrary LibName) (ProcNames.getD I "") ≠ 0)) ∧
    ((LoadProcs env LibName ProcCount ProcNames Procs).Ret ≠ 0 →
      (LoadProcs env LibName ProcCount ProcNames Procs).Ret = env.LoadLibrary LibName ∧
      ∀ I, I < ProcCount →
        (LoadProcs env LibName ProcCount ProcNames Procs).Procs.getD I 0 =
            env.GetProcAddress (env.LoadLibrary LibName) (ProcNames.getD I "") ∧
          (LoadProcs env LibName ProcCount ProcNames Procs).Procs.getD I 0 ≠ 0) ∧
    (∀ K, K < ProcCount → env.LoadLibrary LibName ≠ 0 →
      (∀ J, J < K → env.GetProcAddress (env.LoadLibrary LibName) (ProcNames.getD J "") ≠ 0) →
      env.GetProcAddress (env.LoadLibrary LibName) (ProcNames.getD K "") = 0 →
      (LoadProcs env LibName ProcCount ProcNames Procs).Ret = 0 ∧
      (LoadProcs env LibName ProcCount ProcNames Procs).Calls =
        [LoaderCall.LoadLibrary LibName] ++
          (List.range (K + 1)).map (fun J =>
            LoaderCall.GetProcAddress (env.LoadLibrary LibName) (ProcNames.getD J "")) ++
          [LoaderCall.FreeLibrary (env.LoadLibrary LibName)]) := by
  have hfail : ∀ K, K < ProcCount → env.LoadLibrary LibName ≠ 0 →
      (∀ J, J < K → env.GetProcAddress (env.LoadLibrary LibName) (ProcNames.getD J "") ≠ 0) →
      env.GetProcAddress (env.LoadLibrary LibName) (ProcNames.getD K "") = 0 →
      (LoadProcs env LibName ProcCount ProcNames Procs).Ret = 0 ∧
      (LoadProcs env LibName ProcCount ProcNames Procs).Calls =
        [LoaderCall.LoadLibrary LibName] ++
          (List.range (K + 1)).map (fun J =>
            LoaderCall.GetProcAddress (env.LoadLibrary LibName) (ProcNames.getD J "")) ++
          [LoaderCall.FreeLibrary (env.LoadLibrary LibName)] := by
    intro K hK hlib hres hnull
    obtain ⟨h1, h2, -, -⟩ := LoadProcs.loop_unresolved env (env.LoadLibrary LibName) ProcNames K
      ProcCount 0 Procs [LoaderCall.LoadLibrary LibName] (by omega) (Nat.zero_le K) (by omega)
      (fun J _ hJ => hres J hJ) hnull
    simp only [LoadProcs, if_neg hlib]
    refine ⟨h1, ?_⟩
    rw [h2, List.range_eq_range', Nat.sub_zero]
  have hok : env.LoadLibrary LibName ≠ 0 →
      (∀ I, I < ProcCount →
        env.GetProcAddress (env.LoadLibrary LibName) (ProcNames.getD I "") ≠ 0) →
      (LoadProcs env LibName ProcCount ProcNames Procs).Ret = env.LoadLibrary LibName ∧
      ∀ I, I < ProcCount →
        (LoadProcs env LibName ProcCount ProcNames Procs).Procs.getD I 0 =
          env.GetProcAddress (env.LoadLibrary LibName) (ProcNames.getD I "") := by
    intro hlib hres
    obtain ⟨h1, -, -, h4, -⟩ := LoadProcs.loop_resolved env (env.LoadLibrary LibName) ProcNames
      ProcCount 0 Procs [LoaderCall.LoadLibrary LibName] (by omega)
      (fun J _ hJ => hres J (by omega))
    simp only [LoadProcs, if_neg hlib]
    exact ⟨h1, fun I hI => h4 I (Nat.zero_le I) (by omega)⟩
  have hiff : (LoadProcs env LibName ProcCount ProcNames Procs).Ret ≠ 0 →
      (env.LoadLibrary LibName ≠ 0 ∧ ∀ I, I < ProcCount →
        env.GetProcAddress (env.LoadLibrary LibName) (ProcNames.getD I "") ≠ 0) := by
    intro hret
    have hlib : env.LoadLibrary LibName ≠ 0 := by
      intro h0
      apply hret
      simp only [LoadProcs, h0, if_true]
    refine ⟨hlib, ?_⟩
    by_contra hcon
    push_neg at hcon
    have hex : ∃ I, I < ProcCount ∧
        env.GetProcAddress (env.LoadLibrary LibName) (ProcNames.getD I "") = 0 := hcon
    have hmin := Nat.find_spec hex
    have hbelow : ∀ J, J < Nat.find hex →
        env.GetProcAddress (env.LoadLibrary LibName) (ProcNames.getD J "") ≠ 0 := by
      intro J hJ h0
      exact Nat.find_min hex hJ ⟨by omega, h0⟩
    exact hret (hfail (Nat.find hex) hmin.1 hlib hbelow hmin.2).1
  refine ⟨⟨hiff, ?_⟩, ?_, hfail⟩
  · rintro ⟨hlib, hres⟩
    rw [(hok hlib hres).1]
    exact hlib
  · intro hret
    obtain ⟨hlib, hres⟩ := hiff hret
    obtain ⟨h1, h2⟩ := hok hlib hres
    refine ⟨h1, fun I hI => ⟨h2 I hI, ?_⟩⟩
    rw [h2 I hI]
    exact hres I hI

/-- Witness of C7: the two calls `WinMain` makes, against a loader where
`winmm.dll` has both functions and `descent.dll` lacks `GameUpdate`. -/
theorem LoadProcs_handle_iff_all_resolve_witness :
    (2 ≤ [0, 0].length ∧
      LoadProcs winmmOnlyLoader "winmm.dll" 2 ["timeBeginPeriod", "timeEndPeriod"] [0, 0] =
        { Ret := 0x7000, Procs := [0x7010, 0x7020],
          Calls := [LoaderCall.LoadLibrary "winmm.dll",
            LoaderCall.GetProcAddress 0x7000 "timeBeginPeriod",
            LoaderCall.GetProcAddress 0x7000 "timeEndPeriod"] } ∧
      ((LoadProcs winmmOnlyLoader "winmm.dll" 2 ["timeBeginPeriod", "timeEndPeriod"]
          [0, 0]).Ret ≠ 0 ↔
        (winmmOnlyLoader.LoadLibrary "winmm.dll" ≠ 0 ∧ ∀ I, I < 2 →
          winmmOnlyLoader.GetProcAddress (winmmOnlyLoader.LoadLibrary "winmm.dll")
            (["timeBeginPeriod", "timeEndPeriod"].getD I "") ≠ 0))) ∧
    (1 ≤ [5].length ∧
      (LoadProcs winmmOnlyLoader "descent.dll" 1 ["GameUpdate"] [5]).Ret = 0 ∧
      (LoadProcs winmmOnlyLoader "descent.dll" 1 ["GameUpdate"] [5]).Calls =
        [LoaderCall.LoadLibrary "descent.dll"] ++
          (List.range (0 + 1)).map (fun J =>
            LoaderCall.GetProcAddress (winmmOnlyLoader.LoadLibrary "descent.dll")
              (["GameUpdate"].getD J "")) ++
          [LoaderCall.FreeLibrary (winmmOnlyLoader.LoadLibrary "descent.dll")]) := by
  refine ⟨⟨by decide, by decide,
    (LoadProcs_handle_iff_all_resolve winmmOnlyLoader "winmm.dll" 2
      ["timeBeginPeriod", "timeEndPeriod"] [0, 0] (by decide)).1⟩,
    by decide, ?_⟩
  exact (LoadProcs_handle_iff_all_resolve winmmOnlyLoader "descent.dll" 1 ["GameUpdate"] [5]
    (by decide)).2.2 0 (by decide) (by decide) (fun J hJ => absurd hJ (Nat.not_lt_zero J))
    (by decide)

/-! ## Column ranges of the worker pool -/

theorem workerFirstColumn_eq (W Workers : Nat) :
    ∀ I, workerFirstColumn W Workers I = I * (W / Workers) + min I (W % Workers) := by
  intro I
  induction I with
  | zero => simp [workerFirstColumn]
  | succ I ih =>
    rw [workerFirstColumn, ih, workerColumnCount, Nat.succ_mul]
    split_ifs with h <;> omega

theorem workerFirstColumn_mono (W Workers : Nat) {I J : Nat} (hIJ : I ≤ J) :
    workerFirstColumn W Workers I ≤ workerFirstColumn W Workers J := by
  induction hIJ with
  | refl => exact le_refl _
  | step _ ih => exact le_trans ih (Nat.le_add_right _ _)

theorem workerFirstColumn_last (W Workers : Nat) (hpos : 0 < Workers) :
    workerFirstColumn W Workers Workers = W := by
  rw [workerFirstColumn_eq, Nat.min_eq_right (le_of_lt (Nat.mod_lt W hpos))]
  exact Nat.div_add_mod W Workers

theorem exists_worker_of_lt (W Workers : Nat) :
    ∀ N x, x < workerFirstColumn W Workers N → ∃ I, I < N ∧ inWorkerRange W Workers I x := by
  intro N
  induction N with
  | zero =>
    intro x hx
    exact absurd hx (Nat.not_lt_zero x)
  | succ N ih =>
    intro x hx
    by_cases hlt : x < workerFirstColumn W Workers N
    · obtain ⟨I, hI, hin⟩ := ih x hlt
      exact ⟨I, Nat.lt_succ_of_lt hI, hin⟩
    · exact ⟨N, Nat.lt_succ_self N, Nat.le_of_not_lt hlt, hx⟩

theorem worker_unique (W Workers I J x : Nat) (hI : inWorkerRange W Workers I x)
    (hJ : inWorkerRange W Workers J x) : I = J := by
  have key : ∀ A B, A < B → inWorkerRange W Workers A x → inWorkerRange W Workers B x →
      False := by
    intro A B hAB hA hB
    have hmono : workerFirstColumn W Workers (A + 1) ≤ workerFirstColumn W Workers B :=
      workerFirstColumn_mono W Workers (Nat.succ_le_of_lt hAB)
    have hA2 : x < workerFirstColumn W Workers (A + 1) := hA.2
    have hB1 := hB.1
    omega
  rcases Nat.lt_trichotomy I J with h | h | h
  · exact absurd (key I J h hI hJ) id
  · exact h
  · exact absurd (key J I h hJ hI) id

/-- C5: for a screen of `W` columns and a positive number of workers, the
column ranges start at column `0`, each range starts where the one before
ends, the last ends at `W`, no range reaches past `W`, the range sizes differ
by at most one and never grow from one worker to the next (the remainder goes
to the first workers), and every column below `W` is in the range of exactly
one worker. -/
theorem worker_ranges_partition_columns (W Workers : Nat) (hpos : 0 < Workers) :
    workerFirstColumn W Workers 0 = 0 ∧
    (∀ I, workerFirstColumn W Workers (I + 1) =
      workerFirstColumn W Workers I + workerColumnCount W Workers I) ∧
    workerFirstColumn W Workers Workers = W ∧
    (∀ I J, workerColumnCount W Workers I ≤ workerColumnCount W Workers J + 1) ∧
    (∀ I J, I ≤ J → workerColumnCount W Workers J ≤ workerColumnCount W Workers I) ∧
    (∀ I, I < Workers →
      (workerColumnCount W Workers I = W / Workers + 1 ↔ I < W % Workers) ∧
      (workerColumnCount W Workers I = W / Workers ↔ W % Workers ≤ I)) ∧
    (∀ I x, I < Workers → inWorkerRange W Workers I x → x < W) ∧
    (∀ x, x < W → ∃! I, I < Workers ∧ inWorkerRange W Workers I x) := by
  refine ⟨rfl, fun _ => rfl, workerFirstColumn_last W Workers hpos, ?_, ?_, ?_, ?_, ?_⟩
  · intro I J
    unfold workerColumnCount
    split_ifs <;> omega
  · intro I J hIJ
    unfold workerColumnCount
    split_ifs <;> omega
  · intro I _
    unfold workerColumnCount
    split_ifs <;> constructor <;> omega
  · intro I x hI hin
    have hmono : workerFirstColumn W Workers (I + 1) ≤ workerFirstColumn W Workers Workers :=
      workerFirstColumn_mono W Workers (Nat.succ_le_of_lt hI)
    rw [workerFirstColumn_last W Workers hpos] at hmono
    have hx : x < workerFirstColumn W Workers (I + 1) := hin.2
    omega
  · intro x hx
    rw [← workerFirstColumn_last W Workers hpos] at hx
    obtain ⟨I, hI, hin⟩ := exists_worker_of_lt W Workers Workers x hx
    exact ⟨I, ⟨hI, hin⟩, fun J hJ => worker_unique W Workers J I x hJ.2 hin⟩

/-- Witness of C5: four workers on 641 columns get 161, 160, 160 and 160
columns, starting at 0, 161, 321 and 481; on the `DIB_WIDTH` columns of the
screen the `WORKER_COUNT` workers of the state get 160 each. -/
theorem worker_ranges_partition_columns_witness :
    (0 < 4 ∧
      (List.range 4).map (workerColumnCount 641 4) = [161, 160, 160, 160] ∧
      (List.range 5).map (workerFirstColumn 641 4) = [0, 161, 321, 481, 641] ∧
      workerFirstColumn 641 4 4 = 641 ∧
      ∃! I, I < 4 ∧ inWorkerRange 641 4 I 160) ∧
    (0 < WORKER_COUNT ∧
      (List.range WORKER_COUNT).map (workerColumnCount DIB_WIDTH WORKER_COUNT) =
        [160, 160, 160, 160] ∧
      workerFirstColumn DIB_WIDTH WORKER_COUNT WORKER_COUNT = DIB_WIDTH) :=
  ⟨⟨by decide, by decide, by decide,
      (worker_ranges_partition_columns 641 4 (by decide)).2.2.1,
      (worker_ranges_partition_columns 641 4 (by decide)).2.2.2.2.2.2.2 160 (by decide)⟩,
    by decide, by decide,
    (worker_ranges_partition_columns DIB_WIDTH WORKER_COUNT (by decide)).2.2.1⟩

end Descent
